import Mathlib

/-!
Verification of the decision-pipeline tools of the mcp-project repository.

The Python tools (src/servers/python_server.py and
src/servers/postgresql_server.py) are shallowly embedded here: Python
floats become rationals (ℚ), Python dicts become structures or
association lists, list iteration becomes folds, and functions that
raise become `Except`-valued functions.  Database reads done inside
`calculate_optimal_shift` are passed in as explicit numeric arguments
(the summed forecast quantity and the summed capacity hours), matching
the post-query computation of the source.
-/

/-! ## Python primitive helpers -/

/-- Python `str.split()` with no arguments: split on runs of whitespace,
dropping empty chunks.  Accumulator-based worker over the character list. -/
def splitWsAux : List Char → List Char → List (List Char) → List (List Char)
  | [], cur, acc => acc ++ [cur]
  | c :: cs, cur, acc =>
      if c.isWhitespace then splitWsAux cs [] (acc ++ [cur])
      else splitWsAux cs (cur ++ [c]) acc

def pySplit (s : String) : List String :=
  ((splitWsAux s.data [] []).filter (fun w => w ≠ [])).map (fun w => String.mk w)

/-- Python `str.isdigit()` restricted to ASCII digits: nonempty and all digits. -/
def pyIsDigit (s : String) : Bool :=
  s.data ≠ [] && s.data.all (fun c => '0' ≤ c && c ≤ '9')

/-- Python `str.lower()` (ASCII). -/
def pyToLower (s : String) : String := String.mk (s.data.map Char.toLower)

/-- Python `needle in hay` on strings: substring containment. -/
def containsSub (needle hay : String) : Bool := decide (needle.data <:+: hay.data)

/-- Python `int(x)` on an exact rational: truncation toward zero. -/
def ratTrunc (q : ℚ) : ℤ := if q < 0 then -⌊-q⌋ else ⌊q⌋

/-- Python `max(list, key=f)` over a nonempty list `h :: t`: fold keeping the
current best, replacing it only when the new key is strictly greater, so the
first maximal element wins. -/
def pyMaxBy {α : Type} (f : α → ℚ) (h : α) (t : List α) : α :=
  t.foldl (fun best x => if f best < f x then x else best) h

/-- Python `min(list, key=f)`: replaces only on strictly smaller key, so the
first minimal element wins. -/
def pyMinBy {α : Type} (f : α → ℚ) (h : α) (t : List α) : α :=
  t.foldl (fun best x => if f x < f best then x else best) h

/-- Python `max(iterable)` for a nonempty list of rationals, seeded with the
first element. -/
def listMaxQ (a : ℚ) (l : List ℚ) : ℚ := l.foldl max a

theorem le_listMaxQ_seed (a : ℚ) (l : List ℚ) : a ≤ listMaxQ a l := by
  induction l generalizing a with
  | nil => exact le_refl a
  | cons x xs ih => exact le_trans (le_max_left a x) (ih (max a x))

theorem pyMaxBy_le_seed {α : Type} (f : α → ℚ) (h : α) (t : List α) :
    f h ≤ f (pyMaxBy f h t) := by
  induction t generalizing h with
  | nil => exact le_refl _
  | cons x xs ih =>
      show f h ≤ f (pyMaxBy f (if f h < f x then x else h) xs)
      refine le_trans ?_ (ih (if f h < f x then x else h))
      split
      · exact le_of_lt (by assumption)
      · exact le_refl _

theorem pyMaxBy_mem {α : Type} (f : α → ℚ) (h : α) (t : List α) :
    pyMaxBy f h t ∈ h :: t := by
  induction t generalizing h with
  | nil => exact List.mem_singleton.mpr rfl
  | cons x xs ih =>
      show pyMaxBy f (if f h < f x then x else h) xs ∈ h :: x :: xs
      rcases List.mem_cons.mp (ih (if f h < f x then x else h)) with heq | hmem
      · rw [heq]
        split
        · exact List.mem_cons_of_mem _ (List.mem_cons_self _ _)
        · exact List.mem_cons_self _ _
      · exact List.mem_cons_of_mem _ (List.mem_cons_of_mem _ hmem)

theorem pyMaxBy_le {α : Type} (f : α → ℚ) (h : α) (t : List α) :
    ∀ y ∈ h :: t, f y ≤ f (pyMaxBy f h t) := by
  induction t generalizing h with
  | nil =>
      intro y hy
      rcases List.mem_singleton.mp hy with rfl
      exact le_refl _
  | cons x xs ih =>
      intro y hy
      show f y ≤ f (pyMaxBy f (if f h < f x then x else h) xs)
      rcases List.mem_cons.mp hy with rfl | hy'
      · refine le_trans ?_ (pyMaxBy_le_seed f _ xs)
        split
        · exact le_of_lt (by assumption)
        · exact le_refl _
      · rcases List.mem_cons.mp hy' with rfl | hy''
        · refine le_trans ?_ (pyMaxBy_le_seed f _ xs)
          split
          · exact le_refl _
          · exact le_of_not_lt (by assumption)
        · exact ih _ y (List.mem_cons_of_mem _ hy'')

theorem pyMaxBy_first {α : Type} (f : α → ℚ) (h : α) (t : List α) :
    ∃ l1 l2, h :: t = l1 ++ pyMaxBy f h t :: l2 ∧
      ∀ y ∈ l1, f y < f (pyMaxBy f h t) := by
  induction t generalizing h with
  | nil => exact ⟨[], [], rfl, by simp⟩
  | cons x xs ih =>
      by_cases hc : f h < f x
      · have hm : pyMaxBy f h (x :: xs) = pyMaxBy f x xs := by
          simp [pyMaxBy, hc]
        rw [hm]
        obtain ⟨l1, l2, hsplit, hlt⟩ := ih x
        refine ⟨h :: l1, l2, by rw [List.cons_append, ← hsplit], ?_⟩
        intro y hy
        rcases List.mem_cons.mp hy with rfl | hy'
        · exact lt_of_lt_of_le hc (pyMaxBy_le_seed f x xs)
        · exact hlt y hy'
      · have hm : pyMaxBy f h (x :: xs) = pyMaxBy f h xs := by
          simp [pyMaxBy, hc]
        rw [hm]
        obtain ⟨l1, l2, hsplit, hlt⟩ := ih h
        cases l1 with
        | nil =>
            simp only [List.nil_append] at hsplit
            refine ⟨[], x :: xs, ?_, by simp⟩
            have hh : h = pyMaxBy f h xs := (List.cons.injEq _ _ _ _).mp hsplit |>.1
            rw [List.nil_append, ← hh]
        | cons a l1' =>
            have ha : a = h := ((List.cons.injEq _ _ _ _).mp hsplit).1.symm
            have hxs : xs = l1' ++ pyMaxBy f h xs :: l2 :=
              ((List.cons.injEq _ _ _ _).mp hsplit).2
            refine ⟨h :: x :: l1', l2, by rw [List.cons_append, List.cons_append, ← hxs], ?_⟩
            intro y hy
            have hhlt : f h < f (pyMaxBy f h xs) := by
              have hah := hlt a (List.mem_cons_self _ _)
              rwa [ha] at hah
            rcases List.mem_cons.mp hy with rfl | hy'
            · exact hhlt
            · rcases List.mem_cons.mp hy' with rfl | hy''
              · exact lt_of_le_of_lt (le_of_not_lt hc) hhlt
              · exact hlt y (by simp [hy''])

theorem pyMinBy_le_seed {α : Type} (f : α → ℚ) (h : α) (t : List α) :
    f (pyMinBy f h t) ≤ f h := by
  induction t generalizing h with
  | nil => exact le_refl _
  | cons x xs ih =>
      show f (pyMinBy f (if f x < f h then x else h) xs) ≤ f h
      refine le_trans (ih (if f x < f h then x else h)) ?_
      split
      · exact le_of_lt (by assumption)
      · exact le_refl _

theorem pyMinBy_mem {α : Type} (f : α → ℚ) (h : α) (t : List α) :
    pyMinBy f h t ∈ h :: t := by
  induction t generalizing h with
  | nil => exact List.mem_singleton.mpr rfl
  | cons x xs ih =>
      show pyMinBy f (if f x < f h then x else h) xs ∈ h :: x :: xs
      rcases List.mem_cons.mp (ih (if f x < f h then x else h)) with heq | hmem
      · rw [heq]
        split
        · exact List.mem_cons_of_mem _ (List.mem_cons_self _ _)
        · exact List.mem_cons_self _ _
      · exact List.mem_cons_of_mem _ (List.mem_cons_of_mem _ hmem)

theorem pyMinBy_le {α : Type} (f : α → ℚ) (h : α) (t : List α) :
    ∀ y ∈ h :: t, f (pyMinBy f h t) ≤ f y := by
  induction t generalizing h with
  | nil =>
      intro y hy
      rcases List.mem_singleton.mp hy with rfl
      exact le_refl _
  | cons x xs ih =>
      intro y hy
      show f (pyMinBy f (if f x < f h then x else h) xs) ≤ f y
      rcases List.mem_cons.mp hy with rfl | hy'
      · refine le_trans (pyMinBy_le_seed f _ xs) ?_
        split
        · exact le_of_lt (by assumption)
        · exact le_refl _
      · rcases List.mem_cons.mp hy' with rfl | hy''
        · refine le_trans (pyMinBy_le_seed f _ xs) ?_
          split
          · exact le_refl _
          · exact le_of_not_lt (by assumption)
        · exact ih _ y (List.mem_cons_of_mem _ hy'')

/-! ## src/servers/postgresql_server.py — calculate_optimal_shift -/

/-- A trim as consumed by `calculate_optimal_shift`: the fields it reads. -/
structure TrimRef where
  product_id : String
  production_time : ℚ

/-- The `relativedelta` span computed from the parsed period. -/
inductive PeriodSpan where
  | months (n : ℕ)
  | years (n : ℕ)
deriving DecidableEq

/-- Value of a digit string, as Python `int(...)` on a digit-only string. -/
def natOfDigits (l : List Char) : ℕ :=
  l.foldl (fun n c => 10 * n + (c.toNat - '0'.toNat)) 0

/-- The branch of `calculate_optimal_shift` on the whitespace-split parts of
the period string: exactly two parts with the first all digits, then the
lowercased unit is tested (in order) for the substrings "quarter", "year",
"month"; any other unit, or any other shape, raises ValueError. -/
def parsePeriodParts : List String → String → Except String PeriodSpan
  | [], period => .error ("Invalid period format: " ++ period)
  | [_], period => .error ("Invalid period format: " ++ period)
  | [a, b], period =>
      if pyIsDigit a then
        let value := natOfDigits a.data
        let unit := pyToLower b
        if containsSub "quarter" unit then .ok (.months (3 * value))
        else if containsSub "year" unit then .ok (.years value)
        else if containsSub "month" unit then .ok (.months value)
        else .error ("Unknown time unit in period: " ++ b)
      else .error ("Invalid period format: " ++ period)
  | _ :: _ :: _ :: _, period => .error ("Invalid period format: " ++ period)

def parsePeriod (period : String) : Except String PeriodSpan :=
  parsePeriodParts (pySplit period) period

def exceptIsOk {ε α : Type} : Except ε α → Bool
  | .ok _ => true
  | .error _ => false

theorem parsePeriod_ok_iff (p : String) :
    exceptIsOk (parsePeriod p) = true ↔
      ∃ a b, pySplit p = [a, b] ∧ pyIsDigit a = true ∧
        (containsSub "quarter" (pyToLower b) || containsSub "year" (pyToLower b)
          || containsSub "month" (pyToLower b)) = true := by
  unfold parsePeriod
  rcases h : pySplit p with _ | ⟨a, _ | ⟨b, _ | ⟨c, rest⟩⟩⟩
  · constructor
    · intro hok
      simp [parsePeriodParts, exceptIsOk] at hok
    · rintro ⟨a', b', heq, -, -⟩
      cases heq
  · constructor
    · intro hok
      simp [parsePeriodParts, exceptIsOk] at hok
    · rintro ⟨a', b', heq, -, -⟩
      cases heq
  · by_cases hd : pyIsDigit a = true
    · by_cases hq : containsSub "quarter" (pyToLower b) = true
      · constructor
        · intro _
          exact ⟨a, b, rfl, hd, by simp [hq]⟩
        · intro _
          simp [parsePeriodParts, hd, hq, exceptIsOk]
      · by_cases hy : containsSub "year" (pyToLower b) = true
        · constructor
          · intro _
            exact ⟨a, b, rfl, hd, by simp [hy]⟩
          · intro _
            simp [parsePeriodParts, hd, hq, hy, exceptIsOk]
        · by_cases hm : containsSub "month" (pyToLower b) = true
          · constructor
            · intro _
              exact ⟨a, b, rfl, hd, by simp [hm]⟩
            · intro _
              simp [parsePeriodParts, hd, hq, hy, hm, exceptIsOk]
          · constructor
            · intro hok
              simp [parsePeriodParts, hd, hq, hy, hm, exceptIsOk] at hok
            · rintro ⟨a', b', heq, hd', hu'⟩
              obtain ⟨rfl, rfl⟩ : a' = a ∧ b' = b := by
                have h1 := (List.cons.injEq _ _ _ _).mp heq
                exact ⟨h1.1.symm, ((List.cons.injEq _ _ _ _).mp h1.2).1.symm⟩
              simp [hq, hy, hm] at hu'
    · constructor
      · intro hok
        simp [parsePeriodParts, hd, exceptIsOk] at hok
      · rintro ⟨a', b', heq, hd', -⟩
        obtain ⟨rfl, rfl⟩ : a' = a ∧ b' = b := by
          have h1 := (List.cons.injEq _ _ _ _).mp heq
          exact ⟨h1.1.symm, ((List.cons.injEq _ _ _ _).mp h1.2).1.symm⟩
        exact absurd hd' hd
  · constructor
    · intro hok
      simp [parsePeriodParts, exceptIsOk] at hok
    · rintro ⟨a', b', heq, -, -⟩
      have hlen := congrArg List.length heq
      simp [List.length_cons] at hlen

/-- The post-query numeric core of `calculate_optimal_shift`.  The two DB
sums (`market_constraint_qty` from Demand_Forecast_Log,
`production_constraint_hours` from Production_Capacity) are parameters. -/
structure ShiftCore where
  max_producible_qty : ℚ
  reallocate_qty : ℚ
  binding_constraint : String
  reduce_qty : ℚ

def calcShiftCore (most_efficient least_efficient : TrimRef)
    (market_constraint_qty production_constraint_hours : ℚ) : ShiftCore :=
  let most_efficient_time := most_efficient.production_time
  let least_efficient_time := least_efficient.production_time
  let max_producible_qty :=
    if most_efficient_time > 0 then production_constraint_hours / most_efficient_time else 0
  let reallocate_qty := min market_constraint_qty max_producible_qty
  let binding_constraint :=
    if market_constraint_qty < max_producible_qty then "Market Demand Forecast"
    else "Production Capacity"
  let hours_to_free_up := reallocate_qty * most_efficient_time
  let reduce_qty :=
    if least_efficient_time > 0 then hours_to_free_up / least_efficient_time else 0
  ⟨max_producible_qty, reallocate_qty, binding_constraint, reduce_qty⟩

structure ShiftTarget where
  product_id : String
  quantity : ℤ
deriving DecidableEq

/-- The `optimal_simulation_parameters` dict returned by
`calculate_optimal_shift`. -/
structure ShiftParams where
  reduce_target : ShiftTarget
  reallocate_to : ShiftTarget
  binding_constraint : String
deriving DecidableEq

/-- `calculate_optimal_shift`: parse the period (raising on failure), then
combine the two DB-derived bounds into the shift parameters. -/
def calculateOptimalShift (least_efficient_trim most_efficient_trim : TrimRef)
    (period : String) (market_constraint_qty production_constraint_hours : ℚ) :
    Except String ShiftParams :=
  match parsePeriod period with
  | .error e => .error e
  | .ok _ =>
      let c := calcShiftCore most_efficient_trim least_efficient_trim
        market_constraint_qty production_constraint_hours
      .ok ⟨⟨least_efficient_trim.product_id, ratTrunc c.reduce_qty⟩,
           ⟨most_efficient_trim.product_id, ratTrunc c.reallocate_qty⟩,
           c.binding_constraint⟩

/-- Claim C2: for every demand bound, capacity total and unit production
times, the shift solver computes `max_producible_qty = capacity / unit_time`
(0 when the to-trim unit time is ≤ 0), `reallocate_qty = min demand
max_producible`, and the binding constraint is "Market Demand Forecast"
exactly when the demand bound is strictly below the producible quantity,
and "Production Capacity" otherwise. -/
theorem calc_optimal_shift_core_fields (most least : TrimRef)
    (market_constraint_qty production_constraint_hours : ℚ) :
    (calcShiftCore most least market_constraint_qty production_constraint_hours).max_producible_qty
        = (if most.production_time ≤ 0 then 0
           else production_constraint_hours / most.production_time) ∧
    (calcShiftCore most least market_constraint_qty production_constraint_hours).reallocate_qty
        = min market_constraint_qty
            (calcShiftCore most least market_constraint_qty production_constraint_hours).max_producible_qty ∧
    ((calcShiftCore most least market_constraint_qty production_constraint_hours).binding_constraint
        = "Market Demand Forecast" ↔
      market_constraint_qty
        < (calcShiftCore most least market_constraint_qty production_constraint_hours).max_producible_qty) ∧
    ((calcShiftCore most least market_constraint_qty production_constraint_hours).binding_constraint
        = "Production Capacity" ↔
      ¬ market_constraint_qty
        < (calcShiftCore most least market_constraint_qty production_constraint_hours).max_producible_qty) := by
  have hmax : (calcShiftCore most least market_constraint_qty production_constraint_hours).max_producible_qty
      = if most.production_time > 0 then production_constraint_hours / most.production_time else 0 := rfl
  have hbind : (calcShiftCore most least market_constraint_qty production_constraint_hours).binding_constraint
      = if market_constraint_qty
            < (calcShiftCore most least market_constraint_qty production_constraint_hours).max_producible_qty
        then "Market Demand Forecast" else "Production Capacity" := rfl
  refine ⟨?_, rfl, ?_, ?_⟩
  · rw [hmax]
    rcases le_or_lt most.production_time 0 with hle | hgt
    · rw [if_neg (not_lt.mpr hle), if_pos hle]
    · rw [if_pos hgt, if_neg (not_le.mpr hgt)]
  · rw [hbind]
    split_ifs with h
    · exact iff_of_true rfl h
    · exact iff_of_false (by decide) h
  · rw [hbind]
    split_ifs with h
    · exact iff_of_false (by decide) (not_not_intro h)
    · exact iff_of_true rfl h

/-- Claim C3 (amended): `calculate_optimal_shift` succeeds exactly when the
period string splits into two whitespace-separated parts, the first all
digits, and the lowercased second part contains "quarter", "year" or
"month" as a substring; every other period string raises ValueError.  In
particular the units week and day are rejected. -/
theorem calc_optimal_shift_period_acceptance
    (least most : TrimRef) (period : String) (market capacity : ℚ) :
    exceptIsOk (calculateOptimalShift least most period market capacity) = true ↔
      ∃ a b, pySplit period = [a, b] ∧ pyIsDigit a = true ∧
        (containsSub "quarter" (pyToLower b) || containsSub "year" (pyToLower b)
          || containsSub "month" (pyToLower b)) = true := by
  have hshape : exceptIsOk (calculateOptimalShift least most period market capacity)
      = exceptIsOk (parsePeriod period) := by
    unfold calculateOptimalShift
    cases hp : parsePeriod period <;> rfl
  rw [hshape]
  exact parsePeriod_ok_iff period

/-- Claim C3, counterexample to the claim as stated: "1 week" is of the
form `<integer> <unit>` with a unit the claim allows, yet
`calculate_optimal_shift` raises ValueError on it. -/
theorem calc_optimal_shift_rejects_week :
    pySplit "1 week" = ["1", "week"] ∧ pyIsDigit "1" = true ∧
      exceptIsOk (calculateOptimalShift ⟨"A", 1⟩ ⟨"B", 1⟩ "1 week" 0 0) = false := by
  refine ⟨by decide, by decide, ?_⟩
  have hshape : exceptIsOk (calculateOptimalShift (⟨"A", 1⟩ : TrimRef) ⟨"B", 1⟩ "1 week" 0 0)
      = exceptIsOk (parsePeriod "1 week") := by
    unfold calculateOptimalShift
    cases hp : parsePeriod "1 week" <;> rfl
  rw [hshape]
  decide

/-! ## src/servers/python_server.py — select_optimal_supplier -/

/-- Python `round(x, 4)`: round half to even at the integer level... -/
def roundHalfEven (x : ℚ) : ℤ :=
  if x - ⌊x⌋ < 1/2 then ⌊x⌋
  else if 1/2 < x - ⌊x⌋ then ⌊x⌋ + 1
  else if Even ⌊x⌋ then ⌊x⌋ else ⌊x⌋ + 1

/-- ... scaled to 4 decimal places. -/
def pyRound4 (x : ℚ) : ℚ := (roundHalfEven (x * 10000) : ℚ) / 10000

theorem roundHalfEven_intCast (n : ℤ) : roundHalfEven (n : ℚ) = n := by
  unfold roundHalfEven
  rw [Int.floor_intCast]
  norm_num

theorem pyRound4_eq_self (x : ℚ) (m : ℤ) (h : x * 10000 = (m : ℚ)) : pyRound4 x = x := by
  unfold pyRound4
  rw [h, roundHalfEven_intCast, ← h]
  field_simp

/-- One alternative supplier, as consumed by `select_optimal_supplier`. -/
structure SupplierOption where
  component_id : String
  supplier_id : String
  supplier_name : String
  lead_time_days : ℚ
  unit_price : ℚ
  quality_score : ℚ
deriving DecidableEq

/-- An option together with the composite score the loop attaches to it. -/
structure ScoredOption where
  opt : SupplierOption
  score : ℚ
deriving DecidableEq

/-- The loop body of `select_optimal_supplier`: normalize quality, lead
time and cost against the maxima, combine with weights 0.6/0.25/0.15 and
round to 4 decimals. -/
def scoreOption (max_lead_time max_unit_price : ℚ) (option : SupplierOption) : ScoredOption :=
  let norm_quality := option.quality_score / 100
  let norm_lead_time := if max_lead_time > 0 then 1 - option.lead_time_days / max_lead_time else 0
  let norm_cost := if max_unit_price > 0 then 1 - option.unit_price / max_unit_price else 0
  ⟨option, pyRound4 (norm_quality * 0.6 + norm_lead_time * 0.25 + norm_cost * 0.15)⟩

def maxLeadTime (o : SupplierOption) (rest : List SupplierOption) : ℚ :=
  listMaxQ o.lead_time_days (rest.map (·.lead_time_days))

def maxUnitPrice (o : SupplierOption) (rest : List SupplierOption) : ℚ :=
  listMaxQ o.unit_price (rest.map (·.unit_price))

/-- The `scored_options` list built by `select_optimal_supplier`. -/
def scoredOptions : List SupplierOption → List ScoredOption
  | [] => []
  | o :: rest => (o :: rest).map (scoreOption (maxLeadTime o rest) (maxUnitPrice o rest))

/-- The `selected_solution` dict (type, identifiers, quantity, score). -/
structure SelectedSolution where
  solution_type : String
  component_id : String
  supplier_id : String
  supplier_name : String
  quantity_to_order : ℚ
  score : ℚ
deriving DecidableEq

inductive SupplierSelection where
  | unavailable (solution_type reason rationale : String)
  | chosen (sol : SelectedSolution)
deriving DecidableEq

/-- `select_optimal_supplier`: the empty-input sentinel, else score every
option and take the first one of maximal score (Python `max`). -/
def selectOptimalSupplier (mitigation_options : List SupplierOption)
    (shortage_quantity : ℚ) : SupplierSelection :=
  match mitigation_options with
  | [] => .unavailable "SUPPLY_UNAVAILABLE"
      "No alternative suppliers were found for the component."
      "No sourcing options available in the Sourcing_Rules table."
  | o :: rest =>
      let best := pyMaxBy ScoredOption.score
        (scoreOption (maxLeadTime o rest) (maxUnitPrice o rest) o)
        (rest.map (scoreOption (maxLeadTime o rest) (maxUnitPrice o rest)))
      .chosen ⟨"ALTERNATIVE_SUPPLIER", best.opt.component_id, best.opt.supplier_id,
        best.opt.supplier_name, shortage_quantity, best.score⟩

/-- The scoring formula as the spec words it: weights in front, terms zero
when the respective maximum is zero. -/
def specScore (max_lead_time max_unit_price : ℚ) (option : SupplierOption) : ℚ :=
  pyRound4 (0.6 * (option.quality_score / 100)
    + 0.25 * (if max_lead_time = 0 then 0 else 1 - option.lead_time_days / max_lead_time)
    + 0.15 * (if max_unit_price = 0 then 0 else 1 - option.unit_price / max_unit_price))

theorem scoreOption_eq_specScore (mlt mup : ℚ) (hmlt : 0 ≤ mlt) (hmup : 0 ≤ mup)
    (o : SupplierOption) : (scoreOption mlt mup o).score = specScore mlt mup o := by
  simp only [scoreOption, specScore]
  congr 1
  rcases eq_or_lt_of_le hmlt with h1 | h1
  · subst h1
    rcases eq_or_lt_of_le hmup with h2 | h2
    · subst h2
      rw [if_neg (lt_irrefl (0:ℚ)), if_neg (lt_irrefl (0:ℚ)), if_pos rfl, if_pos rfl]
      ring
    · rw [if_neg (lt_irrefl (0:ℚ)), if_pos h2, if_pos rfl, if_neg (ne_of_gt h2)]
      ring
  · rcases eq_or_lt_of_le hmup with h2 | h2
    · subst h2
      rw [if_pos h1, if_neg (lt_irrefl (0:ℚ)), if_neg (ne_of_gt h1), if_pos rfl]
      ring
    · rw [if_pos h1, if_pos h2, if_neg (ne_of_gt h1), if_neg (ne_of_gt h2)]
      ring

/-- Claim C4: for a nonempty option list (with the domain constraint of
nonnegative lead times and prices), every option is scored by the normalized
weighted formula (terms zero when the respective maximum is zero, rounded
to 4 decimals), and the selection is an option of maximal score, the
first-encountered one on ties. -/
theorem select_optimal_supplier_argmax (o : SupplierOption) (rest : List SupplierOption)
    (shortage_quantity : ℚ)
    (hn : ∀ x ∈ o :: rest, 0 ≤ x.lead_time_days ∧ 0 ≤ x.unit_price) :
    ∃ best l1 l2,
      selectOptimalSupplier (o :: rest) shortage_quantity
        = .chosen ⟨"ALTERNATIVE_SUPPLIER", best.opt.component_id, best.opt.supplier_id,
            best.opt.supplier_name, shortage_quantity, best.score⟩ ∧
      scoredOptions (o :: rest)
        = (o :: rest).map
            (fun x => ⟨x, specScore (maxLeadTime o rest) (maxUnitPrice o rest) x⟩) ∧
      scoredOptions (o :: rest) = l1 ++ best :: l2 ∧
      (∀ y ∈ l1, y.score < best.score) ∧
      (∀ y ∈ scoredOptions (o :: rest), y.score ≤ best.score) := by
  have hmlt : 0 ≤ maxLeadTime o rest :=
    le_trans (hn o (List.mem_cons_self _ _)).1 (le_listMaxQ_seed _ _)
  have hmup : 0 ≤ maxUnitPrice o rest :=
    le_trans (hn o (List.mem_cons_self _ _)).2 (le_listMaxQ_seed _ _)
  obtain ⟨l1, l2, hsplit, hlt⟩ := pyMaxBy_first ScoredOption.score
    (scoreOption (maxLeadTime o rest) (maxUnitPrice o rest) o)
    (rest.map (scoreOption (maxLeadTime o rest) (maxUnitPrice o rest)))
  refine ⟨_, l1, l2, rfl, ?_, hsplit, hlt, ?_⟩
  · refine List.map_congr_left ?_
    intro x hx
    show (⟨x, (scoreOption (maxLeadTime o rest) (maxUnitPrice o rest) x).score⟩ : ScoredOption)
        = ⟨x, specScore (maxLeadTime o rest) (maxUnitPrice o rest) x⟩
    rw [scoreOption_eq_specScore _ _ hmlt hmup x]
  · intro y hy
    exact pyMaxBy_le ScoredOption.score _ _ y hy

/-- Claim C4, witness at a concrete two-option list. -/
theorem select_optimal_supplier_argmax_witness :
    (∀ x ∈ [(⟨"C9", "S1", "Alpha", 10, 100, 80⟩ : SupplierOption),
            ⟨"C9", "S2", "Beta", 5, 50, 90⟩],
        0 ≤ x.lead_time_days ∧ 0 ≤ x.unit_price) ∧
    ∃ best l1 l2,
      selectOptimalSupplier [(⟨"C9", "S1", "Alpha", 10, 100, 80⟩ : SupplierOption),
          ⟨"C9", "S2", "Beta", 5, 50, 90⟩] 7
        = .chosen ⟨"ALTERNATIVE_SUPPLIER", best.opt.component_id, best.opt.supplier_id,
            best.opt.supplier_name, 7, best.score⟩ ∧
      scoredOptions [(⟨"C9", "S1", "Alpha", 10, 100, 80⟩ : SupplierOption),
          ⟨"C9", "S2", "Beta", 5, 50, 90⟩]
        = [(⟨"C9", "S1", "Alpha", 10, 100, 80⟩ : SupplierOption),
            ⟨"C9", "S2", "Beta", 5, 50, 90⟩].map
            (fun x => ⟨x, specScore
              (maxLeadTime ⟨"C9", "S1", "Alpha", 10, 100, 80⟩ [⟨"C9", "S2", "Beta", 5, 50, 90⟩])
              (maxUnitPrice ⟨"C9", "S1", "Alpha", 10, 100, 80⟩ [⟨"C9", "S2", "Beta", 5, 50, 90⟩])
              x⟩) ∧
      scoredOptions [(⟨"C9", "S1", "Alpha", 10, 100, 80⟩ : SupplierOption),
          ⟨"C9", "S2", "Beta", 5, 50, 90⟩] = l1 ++ best :: l2 ∧
      (∀ y ∈ l1, y.score < best.score) ∧
      (∀ y ∈ scoredOptions [(⟨"C9", "S1", "Alpha", 10, 100, 80⟩ : SupplierOption),
          ⟨"C9", "S2", "Beta", 5, 50, 90⟩], y.score ≤ best.score) :=
  ⟨by decide, select_optimal_supplier_argmax ⟨"C9", "S1", "Alpha", 10, 100, 80⟩
    [⟨"C9", "S2", "Beta", 5, 50, 90⟩] 7 (by decide)⟩

/-- Claim C8: on an empty mitigation-option list `select_optimal_supplier`
returns the SUPPLY_UNAVAILABLE sentinel (for any shortage quantity), and
never an exception — the embedding is total and hits the guard before any
max over the empty list. -/
theorem select_optimal_supplier_empty (shortage_quantity : ℚ) :
    selectOptimalSupplier [] shortage_quantity
      = .unavailable "SUPPLY_UNAVAILABLE"
          "No alternative suppliers were found for the component."
          "No sourcing options available in the Sourcing_Rules table." := rfl

/-! ## src/servers/python_server.py — route comparison and recommendation -/

/-- The direct (current) route model dict, when nonempty: its two read
fields, each defaulted to 0 by `.get` in the source when absent. -/
structure RouteModel where
  total_transit_hr : ℚ
  direct_cost : ℚ
deriving DecidableEq

structure RouteLeg where
  transit_hr : ℚ
  cost : ℚ
deriving DecidableEq

structure HubInfo where
  handling_hr : ℚ
  handling_cost : ℚ
deriving DecidableEq

/-- The hub route model dict; each leg can be absent (read via .get with
an empty-dict default), in which case all its numeric reads default to 0. -/
structure HubRouteModel where
  leg1 : Option RouteLeg
  hub : Option HubInfo
  leg2 : Option RouteLeg
deriving DecidableEq

def legTransitHr : Option RouteLeg → ℚ
  | none => 0
  | some l => l.transit_hr

def legCost : Option RouteLeg → ℚ
  | none => 0
  | some l => l.cost

def hubHandlingHr : Option HubInfo → ℚ
  | none => 0
  | some h => h.handling_hr

def hubHandlingCost : Option HubInfo → ℚ
  | none => 0
  | some h => h.handling_cost

/-- One route summary dict of the comparison output. -/
structure RouteSummary where
  total_time_hr : ℚ
  direct_cost : ℚ
  effective_total_cost : ℚ
deriving DecidableEq

/-- `compare_route_effectiveness`: the current-route summary stays the
empty dict (`none`) when the current route model is empty; the new-route
summary is always built, treating missing legs as zeros.  Effective cost
adds 500 per hour of transit/handling. -/
def compareRouteEffectiveness (current_route_model : Option RouteModel)
    (new_route_model : HubRouteModel) : Option RouteSummary × RouteSummary :=
  let current_route_summary := current_route_model.map (fun c =>
    ⟨c.total_transit_hr, c.direct_cost, c.direct_cost + c.total_transit_hr * 500⟩)
  let new_total_time := legTransitHr new_route_model.leg1
    + hubHandlingHr new_route_model.hub + legTransitHr new_route_model.leg2
  let new_direct_cost := legCost new_route_model.leg1
    + hubHandlingCost new_route_model.hub + legCost new_route_model.leg2
  (current_route_summary,
   ⟨new_total_time, new_direct_cost, new_direct_cost + new_total_time * 500⟩)

/-- Reading effective_total_cost with a float-infinity default: an absent
summary reads as plus infinity, modelled as `none`. -/
def effCostOpt : Option RouteSummary → Option ℚ
  | none => none
  | some s => some s.effective_total_cost

/-- Strict `<` on costs where `none` is plus infinity (Python float inf). -/
def qltInf : Option ℚ → Option ℚ → Bool
  | some a, some b => decide (a < b)
  | some _, none => true
  | none, _ => false

structure RouteRec where
  recommendation : String
  justification : String
deriving DecidableEq

/-- `generate_route_recommendation` on a comparison summary whose two route
entries may each be absent: recommend the hub route when its effective cost
is strictly below the current one (infinity when absent), then override
with "No Route Found" when both costs are infinite. -/
def generateRouteRecommendation (current_route new_route : Option RouteSummary) : RouteRec :=
  let current_effective_cost := effCostOpt current_route
  let new_effective_cost := effCostOpt new_route
  let base : RouteRec :=
    if qltInf new_effective_cost current_effective_cost then
      ⟨"New Route via Hub",
       "The route via the new hub is more efficient in terms of total effective cost."⟩
    else
      ⟨"Current Direct Route",
       "The existing direct route is more or equally efficient in terms of total effective cost."⟩
  if current_effective_cost = none ∧ new_effective_cost = none then
    ⟨"No Route Found",
     "Could not find a valid direct or hub-based route between the specified locations."⟩
  else base

/-- The two tools chained as the route pipeline chains them. -/
def routePipeline (current_route_model : Option RouteModel)
    (new_route_model : HubRouteModel) : RouteRec :=
  let s := compareRouteEffectiveness current_route_model new_route_model
  generateRouteRecommendation s.1 (some s.2)

/-- Claim C5: with effective cost = money + hours × 500, the pipeline
recommends the hub route iff the effective cost of the hub route is
strictly below that of the direct route; at the worked example (direct 1000 at 2h vs hub
400/1h + 100/0.5h + 300/1h, i.e. 2000 vs 2050) the direct route wins. -/
theorem route_recommendation_iff_cheaper :
    (∀ (cur : RouteModel) (hm : HubRouteModel),
      (routePipeline (some cur) hm).recommendation = "New Route via Hub" ↔
        (legCost hm.leg1 + hubHandlingCost hm.hub + legCost hm.leg2)
            + (legTransitHr hm.leg1 + hubHandlingHr hm.hub + legTransitHr hm.leg2) * 500
          < cur.direct_cost + cur.total_transit_hr * 500) ∧
    (routePipeline (some ⟨2, 1000⟩)
        ⟨some ⟨1, 400⟩, some ⟨0.5, 100⟩, some ⟨1, 300⟩⟩).recommendation
      = "Current Direct Route" := by
  constructor
  · intro cur hm
    simp only [routePipeline, compareRouteEffectiveness, Option.map_some',
      generateRouteRecommendation, effCostOpt, qltInf, decide_eq_true_eq, reduceCtorEq,
      false_and, and_false, if_false, ite_false]
    split_ifs with h
    · exact iff_of_true rfl h
    · exact iff_of_false (by decide) h
  · norm_num [routePipeline, compareRouteEffectiveness, Option.map_some',
      generateRouteRecommendation, effCostOpt, qltInf, legCost, legTransitHr,
      hubHandlingCost, hubHandlingHr, reduceCtorEq, false_and, and_false]
    decide

/-- Claim C6: with no direct route (empty current-route model) and every
hub leg missing, the hub summary is built from zeros instead of being
marked unmeasurable, so the pipeline recommends "New Route via Hub" at
effective cost 0 — not the "No Route Found" answer the spec requires;
the No-Route branch of `generate_route_recommendation` is unreachable
through `compare_route_effectiveness`. -/
theorem route_pipeline_empty_recommends_hub :
    (routePipeline none ⟨none, none, none⟩).recommendation = "New Route via Hub" ∧
    (routePipeline none ⟨none, none, none⟩).recommendation ≠ "No Route Found" := by
  have h : routePipeline none ⟨none, none, none⟩
      = ⟨"New Route via Hub",
         "The route via the new hub is more efficient in terms of total effective cost."⟩ := by
    norm_num [routePipeline, compareRouteEffectiveness, Option.map_none',
      generateRouteRecommendation, effCostOpt, qltInf, legCost, legTransitHr,
      hubHandlingCost, hubHandlingHr, reduceCtorEq, false_and, and_false]
    intro hc
    exact absurd hc (by decide)
  rw [h]
  exact ⟨rfl, by decide⟩

/-! ## src/servers/python_server.py — identify_efficiency_outliers -/

/-- One trim performance record, as read by the outlier and simulation
tools. -/
structure TrimPerf where
  product_id : String
  standard_product_cost : ℚ
  standard_production_time_hours : ℚ
  unit_margin : ℚ
deriving DecidableEq

/-- The `efficiency_ratio` attached to each record: margin over cost when
the cost is positive, the floor value 0 otherwise. -/
def effRatioOf (trim : TrimPerf) : ℚ :=
  if trim.standard_product_cost > 0 then trim.unit_margin / trim.standard_product_cost
  else 0

/-- The per-trim output dict built by `format_output`. -/
structure TrimOut where
  product_id : String
  production_time : ℚ
  unit_margin : ℚ
deriving DecidableEq

def formatTrimOut (trim : TrimPerf) : TrimOut :=
  ⟨trim.product_id, trim.standard_production_time_hours, trim.unit_margin⟩

/-- The result dict of `identify_efficiency_outliers`. -/
structure OutlierResult where
  least_efficient_trim : TrimOut
  most_efficient_trim : TrimOut
deriving DecidableEq

/-- `identify_efficiency_outliers`: raises on an empty list, otherwise
scores every record and takes Python `max`/`min` by the ratio. -/
def identifyEfficiencyOutliers (trim_performance_data : List TrimPerf) :
    Except String OutlierResult :=
  match trim_performance_data with
  | [] => .error "Input trim_performance_data cannot be empty."
  | t :: ts =>
      let most_efficient := pyMaxBy effRatioOf t ts
      let least_efficient := pyMinBy effRatioOf t ts
      .ok ⟨formatTrimOut least_efficient, formatTrimOut most_efficient⟩

/-- Claim C7: on a nonempty record list the tool succeeds, the ratio of
each record is margin/cost for positive cost and 0 for cost ≤ 0 (whatever
the sign of the margin), and the reported most/least efficient trims come from
records of maximal/minimal ratio. -/
theorem identify_efficiency_outliers_extremes (t : TrimPerf) (ts : List TrimPerf) :
    ∃ most least,
      identifyEfficiencyOutliers (t :: ts)
        = .ok ⟨formatTrimOut least, formatTrimOut most⟩ ∧
      most ∈ t :: ts ∧ least ∈ t :: ts ∧
      (∀ u ∈ t :: ts, effRatioOf u ≤ effRatioOf most) ∧
      (∀ u ∈ t :: ts, effRatioOf least ≤ effRatioOf u) ∧
      (∀ u ∈ t :: ts, u.standard_product_cost ≤ 0 → effRatioOf u = 0) ∧
      (∀ u ∈ t :: ts, 0 < u.standard_product_cost →
        effRatioOf u = u.unit_margin / u.standard_product_cost) := by
  refine ⟨pyMaxBy effRatioOf t ts, pyMinBy effRatioOf t ts, rfl,
    pyMaxBy_mem effRatioOf t ts, pyMinBy_mem effRatioOf t ts,
    pyMaxBy_le effRatioOf t ts, pyMinBy_le effRatioOf t ts, ?_, ?_⟩
  · intro u _ hle
    exact if_neg (not_lt.mpr hle)
  · intro u _ hpos
    exact if_pos hpos

/-! ## src/servers/python_server.py — optimize_final_buy_quantity -/

structure PricingTier where
  min_qty : ℚ
  price : ℚ
deriving DecidableEq

structure SourcingRules where
  min_order_qty : ℚ
  volume_pricing : List PricingTier
deriving DecidableEq

/-- Stable ascending insertion sort on rationals (Python `sorted`). -/
def insertAsc (x : ℚ) : List ℚ → List ℚ
  | [] => [x]
  | y :: ys => if x ≤ y then x :: y :: ys else y :: insertAsc x ys

def sortAsc : List ℚ → List ℚ
  | [] => []
  | x :: xs => insertAsc x (sortAsc xs)

/-- Collapse adjacent duplicates of a sorted list; composed with `sortAsc`
this is Python `sorted(list(set(...)))` on rational values. -/
def dedupSorted : List ℚ → List ℚ
  | [] => []
  | [x] => [x]
  | x :: y :: r => if x = y then dedupSorted (y :: r) else x :: dedupSorted (y :: r)

/-- Stable descending sort of tiers by `min_qty`
(Python `sorted(tiers, key=..., reverse=True)`). -/
def insertTierDesc (t : PricingTier) : List PricingTier → List PricingTier
  | [] => [t]
  | u :: us => if u.min_qty ≤ t.min_qty then t :: u :: us else u :: insertTierDesc t us

def sortTiersDesc : List PricingTier → List PricingTier
  | [] => []
  | t :: ts => insertTierDesc t (sortTiersDesc ts)

/-- The tier loop of `get_price_for_quantity`: first tier (descending) whose
threshold the quantity meets. -/
def findTier (quantity : ℚ) : List PricingTier → Option PricingTier
  | [] => none
  | tier :: rest => if quantity ≥ tier.min_qty then some tier else findTier quantity rest

/-- `get_price_for_quantity`: price of the first applicable tier, else the
price of the first listed tier, else 0 with no tiers at all. -/
def getPriceForQuantity (quantity : ℚ) (tiers : List PricingTier) : ℚ :=
  match findTier quantity (sortTiersDesc tiers) with
  | some tier => tier.price
  | none =>
      match tiers with
      | [] => 0
      | tier :: _ => tier.price

/-- The candidate set `{net_required_units, min_order_qty} ∪ tier minima`,
iterated in ascending order. -/
def candidateQuantities (net_required_units min_order_qty : ℚ)
    (tiers : List PricingTier) : List ℚ :=
  dedupSorted (sortAsc ([net_required_units, min_order_qty] ++ tiers.map (fun t => t.min_qty)))

/-- One entry of `tco_results` (quantity as Python `int(qty)`). -/
structure TcoEntry where
  quantity : ℤ
  tco : ℚ
deriving DecidableEq

/-- The candidate loop: quantities below the minimum order are skipped
(except 0, which enters with TCO 0); others get purchase cost at their tier
price plus obsolescence cost on any surplus above the net requirement. -/
def tcoResults (net_required_units min_order_qty obsolescence_cost_per_unit : ℚ)
    (tiers : List PricingTier) : List TcoEntry :=
  (candidateQuantities net_required_units min_order_qty tiers).filterMap (fun qty =>
    if qty < min_order_qty then
      if qty = 0 then some ⟨0, 0⟩ else none
    else
      let unit_price := getPriceForQuantity qty tiers
      let purchase_cost := qty * unit_price
      let surplus_qty := max 0 (qty - net_required_units)
      let obsolescence_cost := surplus_qty * obsolescence_cost_per_unit
      some ⟨ratTrunc qty, purchase_cost + obsolescence_cost⟩)

structure BuyDecision where
  net_required_units : ℤ
  final_order_quantity : ℤ
deriving DecidableEq

/-- `optimize_final_buy_quantity`: net requirement after inventory, TCO per
candidate, Python `min` by TCO (first minimum on ties); with no TCO rows the
minimum order quantity is returned. -/
def optimizeFinalBuyQuantity (total_required_units current_inventory : ℚ)
    (sourcing_rules : SourcingRules) (obsolescence_cost_per_unit : ℚ) : BuyDecision :=
  let net_required_units := max 0 (total_required_units - current_inventory)
  let results := tcoResults net_required_units sourcing_rules.min_order_qty
    obsolescence_cost_per_unit sourcing_rules.volume_pricing
  match results with
  | [] => ⟨ratTrunc net_required_units, ratTrunc sourcing_rules.min_order_qty⟩
  | r :: rs => ⟨ratTrunc net_required_units, (pyMinBy TcoEntry.tco r rs).quantity⟩

/-- Claim C1: at total required 100, inventory 20, minimum order 50, tiers
(50 → 10, 100 → 8), obsolescence 2: net requirement 80; the TCO table keeps
the under-ordering candidate 50 (50 ≥ min order even though 50 < 80) at cost
500, against 800 at 80 and 840 at 100; the solver returns quantity 50. -/
theorem tco_solver_example :
    optimizeFinalBuyQuantity 100 20 ⟨50, [⟨50, 10⟩, ⟨100, 8⟩]⟩ 2 = ⟨80, 50⟩ ∧
    tcoResults 80 50 2 [⟨50, 10⟩, ⟨100, 8⟩]
      = [⟨50, 500⟩, ⟨80, 800⟩, ⟨100, 840⟩] ∧
    (50 : ℚ) < 80 ∧ ¬ (50 : ℚ) < 50 := by
  have hc : candidateQuantities 80 50 [⟨50, 10⟩, ⟨100, 8⟩] = [50, 80, 100] := by
    norm_num [candidateQuantities, sortAsc, insertAsc, dedupSorted]
  have hp50 : getPriceForQuantity 50 [⟨50, 10⟩, ⟨100, 8⟩] = 10 := by
    norm_num [getPriceForQuantity, findTier, sortTiersDesc, insertTierDesc]
  have hp80 : getPriceForQuantity 80 [⟨50, 10⟩, ⟨100, 8⟩] = 10 := by
    norm_num [getPriceForQuantity, findTier, sortTiersDesc, insertTierDesc]
  have hp100 : getPriceForQuantity 100 [⟨50, 10⟩, ⟨100, 8⟩] = 8 := by
    norm_num [getPriceForQuantity, findTier, sortTiersDesc, insertTierDesc]
  have hr : tcoResults 80 50 2 [⟨50, 10⟩, ⟨100, 8⟩]
      = [⟨50, 500⟩, ⟨80, 800⟩, ⟨100, 840⟩] := by
    rw [tcoResults, hc]
    rw [List.filterMap_cons, List.filterMap_cons, List.filterMap_cons, List.filterMap_nil]
    norm_num [hp50, hp80, hp100, ratTrunc]
  refine ⟨?_, hr, by norm_num, by norm_num⟩
  have hnet : max (0 : ℚ) (100 - 20) = 80 := by norm_num
  simp only [optimizeFinalBuyQuantity]
  rw [hnet, hr]
  have hmin : pyMinBy TcoEntry.tco ⟨50, 500⟩ [⟨80, 800⟩, ⟨100, 840⟩] = (⟨50, 500⟩ : TcoEntry) := by
    norm_num [pyMinBy]
  show (⟨ratTrunc 80, (pyMinBy TcoEntry.tco ⟨50, 500⟩ [⟨80, 800⟩, ⟨100, 840⟩]).quantity⟩ : BuyDecision)
      = ⟨80, 50⟩
  rw [hmin]
  norm_num [ratTrunc]

/-! ## src/servers/python_server.py — simulate_financial_impact and
generate_mix_recommendation -/

/-- The `margin_map` dict comprehension read with `.get(id, 0)`: later
records with the same product id overwrite earlier ones, a missing id
yields margin 0. -/
def marginMapGet (trim_performance_data : List TrimPerf) (id : String) : ℚ :=
  match trim_performance_data.reverse.find? (fun trim => decide (trim.product_id = id)) with
  | some trim => trim.unit_margin
  | none => 0

/-- `simulate_financial_impact`: the `simulation_result` dict as an
association list in insertion order (Python dict literals keep the last
binding of a duplicated key; reads below honour that). -/
def simulateFinancialImpact (optimal_simulation_parameters : ShiftParams)
    (trim_performance_data : List TrimPerf) : List (String × ℚ) :=
  let reduce_id := optimal_simulation_parameters.reduce_target.product_id
  let reduce_qty := optimal_simulation_parameters.reduce_target.quantity
  let reallocate_id := optimal_simulation_parameters.reallocate_to.product_id
  let reallocate_qty := optimal_simulation_parameters.reallocate_to.quantity
  let reduce_margin := marginMapGet trim_performance_data reduce_id
  let reallocate_margin := marginMapGet trim_performance_data reallocate_id
  let margin_change_from_reduction := (reduce_qty : ℚ) * reduce_margin
  let margin_change_from_reallocation := (reallocate_qty : ℚ) * reallocate_margin
  let net_margin_impact := margin_change_from_reallocation + margin_change_from_reduction
  [("margin_change_from_" ++ reduce_id, margin_change_from_reduction),
   ("margin_change_from_" ++ reallocate_id, margin_change_from_reallocation),
   ("net_margin_impact", net_margin_impact)]

/-- Python `dict(...).get(key, default)` over an insertion-ordered
association list: the last binding of the key wins. -/
def pyDictGet (d : List (String × ℚ)) (key : String) (dflt : ℚ) : ℚ :=
  match d.reverse.find? (fun p => decide (p.1 = key)) with
  | some p => p.2
  | none => dflt

structure MixAction where
  action_type : String
  product_id : String
  quantity : ℤ
deriving DecidableEq

structure MixDetails where
  projected_net_margin_gain : ℚ
deriving DecidableEq

/-- The `final_answer` of `generate_mix_recommendation` (the justification
prose, which interpolates the same fields, is omitted). -/
structure MixFinalAnswer where
  recommendation : List MixAction
  details : MixDetails
deriving DecidableEq

def generateMixRecommendation (simulation_result : List (String × ℚ))
    (optimal_simulation_parameters : ShiftParams) : MixFinalAnswer :=
  let net_margin_impact := pyDictGet simulation_result "net_margin_impact" 0
  let reduce_target := optimal_simulation_parameters.reduce_target
  let reallocate_to := optimal_simulation_parameters.reallocate_to
  { recommendation :=
      [⟨"REDUCE_TARGET", reduce_target.product_id, reduce_target.quantity⟩,
       ⟨"INCREASE_TARGET", reallocate_to.product_id, reallocate_to.quantity⟩],
    details := ⟨net_margin_impact⟩ }

theorem simulateFinancialImpact_net (params : ShiftParams) (data : List TrimPerf) :
    pyDictGet (simulateFinancialImpact params data) "net_margin_impact" 0
      = (params.reallocate_to.quantity : ℚ) * marginMapGet data params.reallocate_to.product_id
        + (params.reduce_target.quantity : ℚ) * marginMapGet data params.reduce_target.product_id := by
  simp only [simulateFinancialImpact, pyDictGet, List.reverse_cons, List.reverse_nil,
    List.nil_append, List.cons_append, List.find?]
  simp

/-- Claim C9: the mix-recommendation formatter copies the field
`net_margin_impact` into `details.projected_net_margin_gain` unchanged:
for every simulation run the formatted detail equals the net margin impact
the simulator computed. -/
theorem mix_recommendation_carries_net_margin (params : ShiftParams) (data : List TrimPerf) :
    (generateMixRecommendation (simulateFinancialImpact params data) params).details.projected_net_margin_gain
      = pyDictGet (simulateFinancialImpact params data) "net_margin_impact" 0 ∧
    (generateMixRecommendation (simulateFinancialImpact params data) params).details.projected_net_margin_gain
      = (params.reallocate_to.quantity : ℚ) * marginMapGet data params.reallocate_to.product_id
        + (params.reduce_target.quantity : ℚ) * marginMapGet data params.reduce_target.product_id :=
  ⟨rfl, simulateFinancialImpact_net params data⟩

/-- Claim C10, counterexample to the claim as stated: with both unit
margins positive (1 and 1) but a zero reduce quantity, the net impact
equals the reallocation gain (5 = 5 × 1) instead of exceeding it. -/
theorem simulate_financial_impact_zero_reduce :
    (0 : ℚ) < marginMapGet [⟨"A", 1, 1, 1⟩, ⟨"B", 1, 1, 1⟩] "A" ∧
    (0 : ℚ) < marginMapGet [⟨"A", 1, 1, 1⟩, ⟨"B", 1, 1, 1⟩] "B" ∧
    ¬ pyDictGet (simulateFinancialImpact ⟨⟨"A", 0⟩, ⟨"B", 5⟩, "Production Capacity"⟩
          [⟨"A", 1, 1, 1⟩, ⟨"B", 1, 1, 1⟩]) "net_margin_impact" 0
        > ((5 : ℤ) : ℚ) * marginMapGet [⟨"A", 1, 1, 1⟩, ⟨"B", 1, 1, 1⟩] "B" := by
  have hA : marginMapGet [(⟨"A", 1, 1, 1⟩ : TrimPerf), ⟨"B", 1, 1, 1⟩] "A" = 1 := by decide
  have hB : marginMapGet [(⟨"A", 1, 1, 1⟩ : TrimPerf), ⟨"B", 1, 1, 1⟩] "B" = 1 := by decide
  have hnet := simulateFinancialImpact_net ⟨⟨"A", 0⟩, ⟨"B", 5⟩, "Production Capacity"⟩
    [⟨"A", 1, 1, 1⟩, ⟨"B", 1, 1, 1⟩]
  refine ⟨by rw [hA]; norm_num, by rw [hB]; norm_num, ?_⟩
  rw [hnet]
  simp only [hA, hB]
  norm_num

/-- Claim C10 (amended): for every shift-parameters record and performance
list, the net margin impact is
reduce_qty × margin(reduce id) + reallocate_qty × margin(reallocate id),
a product id absent from the performance list contributes margin 0, the
margin change of the reduction is added (not subtracted); and in the case
that both margins are positive and the reduce quantity is positive, the net
impact strictly exceeds the reallocation gain alone. -/
theorem simulate_financial_impact_net_margin (params : ShiftParams) (data : List TrimPerf) :
    pyDictGet (simulateFinancialImpact params data) "net_margin_impact" 0
      = (params.reduce_target.quantity : ℚ) * marginMapGet data params.reduce_target.product_id
        + (params.reallocate_to.quantity : ℚ) * marginMapGet data params.reallocate_to.product_id ∧
    (∀ id : String, (∀ trim ∈ data, trim.product_id ≠ id) → marginMapGet data id = 0) ∧
    (0 < marginMapGet data params.reduce_target.product_id →
     0 < marginMapGet data params.reallocate_to.product_id →
     0 < params.reduce_target.quantity →
     pyDictGet (simulateFinancialImpact params data) "net_margin_impact" 0
       > (params.reallocate_to.quantity : ℚ)
          * marginMapGet data params.reallocate_to.product_id) := by
  have hnet := simulateFinancialImpact_net params data
  refine ⟨by rw [hnet]; ring, ?_, ?_⟩
  · intro id habsent
    unfold marginMapGet
    have hnone : data.reverse.find? (fun trim => decide (trim.product_id = id)) = none := by
      rw [List.find?_eq_none]
      intro trim hmem
      simp only [decide_eq_true_eq]
      exact habsent trim (List.mem_reverse.mp hmem)
    rw [hnone]
  · intro hmR _hmA hqR
    rw [hnet]
    have hpos : 0 < (params.reduce_target.quantity : ℚ)
        * marginMapGet data params.reduce_target.product_id :=
      mul_pos (by exact_mod_cast hqR) hmR
    linarith

/-- Claim C10, witness: the theorem applied at a concrete record, with the
strict-excess case additionally discharged at its positive margins and
positive reduce quantity. -/
theorem simulate_financial_impact_net_margin_witness :
    (pyDictGet (simulateFinancialImpact ⟨⟨"A", 2⟩, ⟨"B", 5⟩, "Production Capacity"⟩
          [⟨"A", 1, 1, 1⟩, ⟨"B", 1, 1, 1⟩]) "net_margin_impact" 0
        = ((2 : ℤ) : ℚ) * marginMapGet [⟨"A", 1, 1, 1⟩, ⟨"B", 1, 1, 1⟩] "A"
          + ((5 : ℤ) : ℚ) * marginMapGet [⟨"A", 1, 1, 1⟩, ⟨"B", 1, 1, 1⟩] "B" ∧
      (∀ id : String, (∀ trim ∈ [(⟨"A", 1, 1, 1⟩ : TrimPerf), ⟨"B", 1, 1, 1⟩],
          trim.product_id ≠ id) →
        marginMapGet [(⟨"A", 1, 1, 1⟩ : TrimPerf), ⟨"B", 1, 1, 1⟩] id = 0) ∧
      ((0 : ℚ) < marginMapGet [⟨"A", 1, 1, 1⟩, ⟨"B", 1, 1, 1⟩] "A" →
       (0 : ℚ) < marginMapGet [⟨"A", 1, 1, 1⟩, ⟨"B", 1, 1, 1⟩] "B" →
       (0 : ℤ) < 2 →
       pyDictGet (simulateFinancialImpact ⟨⟨"A", 2⟩, ⟨"B", 5⟩, "Production Capacity"⟩
           [⟨"A", 1, 1, 1⟩, ⟨"B", 1, 1, 1⟩]) "net_margin_impact" 0
         > ((5 : ℤ) : ℚ) * marginMapGet [⟨"A", 1, 1, 1⟩, ⟨"B", 1, 1, 1⟩] "B")) ∧
    pyDictGet (simulateFinancialImpact ⟨⟨"A", 2⟩, ⟨"B", 5⟩, "Production Capacity"⟩
        [⟨"A", 1, 1, 1⟩, ⟨"B", 1, 1, 1⟩]) "net_margin_impact" 0
      > ((5 : ℤ) : ℚ) * marginMapGet [⟨"A", 1, 1, 1⟩, ⟨"B", 1, 1, 1⟩] "B" :=
  ⟨simulate_financial_impact_net_margin ⟨⟨"A", 2⟩, ⟨"B", 5⟩, "Production Capacity"⟩
     [⟨"A", 1, 1, 1⟩, ⟨"B", 1, 1, 1⟩],
   (simulate_financial_impact_net_margin ⟨⟨"A", 2⟩, ⟨"B", 5⟩, "Production Capacity"⟩
     [⟨"A", 1, 1, 1⟩, ⟨"B", 1, 1, 1⟩]).2.2 (by decide) (by decide) (by decide)⟩
